import Mathlib

/-!
Shallow embedding of `src/open_deep_research/run_agents.py`
(the attachment-description pipeline of pminervini/open-deep-research),
together with theorems settling the claims about it.

Python strings are modelled as Lean `String`; the external captioners
(`visual_inspection_tool`, `document_inspection_tool.forward_initial_exam_mode`)
are modelled as functions `String → String → Except ε String` (argument order:
path, prompt); a raised exception is an `Except.error`.  The filesystem is
modelled explicitly (`FSState`) where the code touches it.
-/

namespace RunAgents

mutual
/-- Directory-tree entry visible to `os.walk`: a regular file or a
subdirectory with its own (ordered) listing.  The listing order plays the
role of the order in which `os.scandir` reports entries. -/
inductive Entry where
  | file (name : String)
  | dir (name : String) (entries : EntryList)

/-- An ordered directory listing. -/
inductive EntryList where
  | nil
  | cons (e : Entry) (rest : EntryList)
end

/-- Splitter behind Python `s.split(sep)` for a one-character separator
(agrees with `String.splitOn` for such separators). -/
def pySplitAux (sep : Char) (acc : List Char) : List Char → List String
  | [] => [String.mk acc.reverse]
  | c :: rest =>
      if c = sep then String.mk acc.reverse :: pySplitAux sep [] rest
      else pySplitAux sep (c :: acc) rest

/-- Python `s.split(sep)` for a one-character separator. -/
def pySplit (sep : Char) (s : String) : List String := pySplitAux sep [] s.data

/-- Python `s.split(".")[-1]` — the suffix after the final `.`
(the whole string when there is no `.`); `run_agents.py` line 20. -/
def extOf (p : String) : String := (pySplit '.' p).getLastD ""

/-- Python `file_path.split(".")[0] + ".png"` — the probe path for a
pre-rendered PNG sibling; `run_agents.py` line 28.  Note this keeps only the
part of the path before the FIRST `.`. -/
def pngProbe (p : String) : String := (pySplit '.' p).headD "" ++ ".png"

/-- The extension set the code treats as images (line 21). -/
def imageExts : List String := ["png", "jpg", "jpeg"]

/-- The extension set the code treats as documents (line 27). -/
def docExts : List String := ["pdf", "xls", "xlsx", "docx", "doc", "xml"]

/-- The extension set the code treats as audio (line 37). -/
def audioExts : List String := ["mp3", "m4a", "wav"]

/-- The derived classification of a path, following the if/elif chain of
`get_single_file_description` (spec §3 "ExtensionClass"). -/
inductive ExtensionClass where
  | image
  | document
  | audio
  | other
deriving DecidableEq, Repr

/-- Classification exactly as the source branches on `file_path.split(".")[-1]`:
case-preserving membership tests against the three fixed lists. -/
def classifyExt (p : String) : ExtensionClass :=
  if extOf p ∈ imageExts then .image
  else if extOf p ∈ docExts then .document
  else if extOf p ∈ audioExts then .audio
  else .other

/-- The f-string prompt of `get_image_description` (lines 8–10). -/
def imagePrompt (question : String) : String :=
  "Write a caption of 5 sentences for this image. Pay special attention to any details that might be useful for someone answering the following question:\n"
    ++ question
    ++ ". But do not try to answer the question directly!\nDo not add any information that is not present in the image."

/-- The f-string prompt of `get_document_description` (lines 14–16). -/
def docPrompt (question : String) : String :=
  "Write a caption of 5 sentences for this document. Pay special attention to any details that might be useful for someone answering the following question:\n"
    ++ question
    ++ ". But do not try to answer the question directly!\nDo not add any information that is not present in the document."

/-- `get_image_description` (lines 7–11): build the prompt and call the
visual inspection tool on `(file_name, prompt)`. -/
def get_image_description (visual_inspection_tool : String → String → Except ε String)
    (file_name question : String) : Except ε String :=
  visual_inspection_tool file_name (imagePrompt question)

/-- `get_document_description` (lines 13–17): build the prompt and call the
document inspection tool's initial-exam mode on `(file_path, prompt)`. -/
def get_document_description (document_inspection_tool : String → String → Except ε String)
    (file_path question : String) : Except ε String :=
  document_inspection_tool file_path (docPrompt question)

/-- `get_single_file_description` (lines 19–40).  `ex` models
`os.path.exists`.  Exceptions raised by the tools propagate as
`Except.error`. -/
def get_single_file_description (ex : String → Bool)
    (visual_inspection_tool document_inspection_tool : String → String → Except ε String)
    (file_path question : String) : Except ε String :=
  let file_extension := extOf file_path
  if file_extension ∈ imageExts then
    match get_image_description visual_inspection_tool file_path question with
    | .error e => .error e
    | .ok cap =>
        .ok (" - Attached image: " ++ file_path
          ++ "\n     -> Image description: " ++ cap)
  else if file_extension ∈ docExts then
    let image_path := pngProbe file_path
    if ex image_path then
      -- description from the PNG sibling; `file_path = image_path` afterwards
      match get_image_description visual_inspection_tool image_path question with
      | .error e => .error e
      | .ok d =>
          .ok (" - Attached document: " ++ image_path
            ++ "\n     -> File description: " ++ d)
    else
      match get_document_description document_inspection_tool file_path question with
      | .error e => .error e
      | .ok d =>
          .ok (" - Attached document: " ++ file_path
            ++ "\n     -> File description: " ++ d)
  else if file_extension ∈ audioExts then
    .ok (" - Attached audio: " ++ file_path)
  else
    .ok (" - Attached file: " ++ file_path)

/-! ### Python string / stdlib primitives used by `get_zip_description` -/

/-- Scanner for Python `str.replace` with a non-empty pattern `p0 :: ps`:
left-to-right, non-overlapping occurrences are replaced by `new`. -/
def pyReplaceAux (p0 : Char) (ps new : List Char) : List Char → List Char
  | [] => []
  | c :: rest =>
      if c = p0 ∧ ps.isPrefixOf rest then
        new ++ pyReplaceAux p0 ps new (rest.drop ps.length)
      else
        c :: pyReplaceAux p0 ps new rest
termination_by l => l.length
decreasing_by
  · simp only [List.length_drop, List.length_cons]; omega
  · simp only [List.length_cons]; omega

/-- Python `s.replace(old, new)`: replace every non-overlapping occurrence of
`old`, scanning left to right.  (For empty `old`, Python interleaves `new`
around every character.) -/
def pyReplace (s old new : String) : String :=
  match old.data with
  | [] => String.mk (new.data ++ s.data.flatMap (fun c => c :: new.data))
  | p0 :: ps => String.mk (pyReplaceAux p0 ps new.data s.data)

/-- `folder_path = file_path.replace(".zip", "")` (line 43). -/
def zipFolderPath (file_path : String) : String := pyReplace file_path ".zip" ""

/-- `s.startswith(pre)`. -/
def strStarts (s pre : String) : Bool := pre.data.isPrefixOf s.data

/-- `s.endswith(suf)`. -/
def strEnds (s suf : String) : Bool := suf.data.reverse.isPrefixOf s.data.reverse

/-- POSIX `os.path.join(a, b)` for the two-argument calls in the walk loop
(line 50). -/
def pyJoin (a b : String) : String :=
  if strStarts b "/" then b
  else if a = "" then b
  else if strEnds a "/" then a ++ b
  else a ++ "/" ++ b

/-- Python `str.splitlines(keepends=True)` restricted to `'\n'` as the line
boundary (the only boundary that arises in the fragments the code builds). -/
def splitlinesAux (acc : List Char) : List Char → List String
  | [] => if acc.isEmpty then [] else [String.mk acc.reverse]
  | c :: rest =>
      if c = '\n' then
        String.mk (acc.reverse ++ ['\n']) :: splitlinesAux [] rest
      else
        splitlinesAux (c :: acc) rest

def splitlinesKE (s : String) : List String := splitlinesAux [] s.data

/-- Default `textwrap.indent` predicate: `line.strip()` is truthy, i.e. the
line holds some non-whitespace character. -/
def lineHasContent (l : String) : Bool := l.data.any (fun c => !c.isWhitespace)

/-- `textwrap.indent(text, prefix)` (lines 51–54): prepend `prefix` to every
line that is not whitespace-only. -/
def pyIndent (text pre : String) : String :=
  String.join ((splitlinesKE text).map (fun l => if lineHasContent l then pre ++ l else l))

/-! ### Filesystem model -/

/-- Mutable filesystem state threaded through `get_zip_description`:
`exists0` is the set of paths that exist outside the model (e.g. pre-rendered
PNG siblings), `dirs` the set of directories created by `os.makedirs`, and
`extracted` maps a destination folder to the tree extracted into it. -/
structure FSState where
  exists0 : String → Bool
  dirs : List String
  extracted : List (String × EntryList)

/-- Directory-set effect of `os.makedirs` (creating the leaf when absent). -/
def makedirsState (p : String) (s : FSState) : FSState :=
  if s.dirs.contains p then s else { s with dirs := p :: s.dirs }

/-- `os.makedirs(p, exist_ok=...)` (line 44): raises `FileExistsError` when
the leaf exists and `exist_ok` is false, otherwise creates it. -/
def os_makedirs (p : String) (exist_ok : Bool) (s : FSState) : Except String FSState :=
  if s.dirs.contains p && !exist_ok then .error "FileExistsError"
  else .ok (makedirsState p s)

/-- Effect of `shutil.unpack_archive(file_path, folder_path)` on a successful
extraction: the destination folder now holds the archive's tree. -/
def unpackInto (folder : String) (tree : EntryList) (s : FSState) : FSState :=
  { s with extracted := (folder, tree) :: s.extracted.filter (fun ft => !(ft.1 == folder)) }

/-- The name of a directory entry. -/
def entryName : Entry → String
  | .file n => n
  | .dir n _ => n

/-- Does the relative path (already split on `/`) resolve inside a tree? -/
def pathExistsIn : List String → EntryList → Bool
  | _, .nil => false
  | [], .cons _ _ => false
  | [n], .cons e rest => (entryName e == n) || pathExistsIn [n] rest
  | d :: ds, .cons e rest =>
      (match e with
        | .file _ => false
        | .dir m sub => m == d && pathExistsIn ds sub)
      || pathExistsIn (d :: ds) rest
termination_by parts es => (parts.length, sizeOf es)

/-- `some rel` when `p` lies strictly under `folder`. -/
def relUnder (folder p : String) : Option String :=
  if (folder ++ "/").data.isPrefixOf p.data then
    some (String.mk (p.data.drop (folder ++ "/").length))
  else none

/-- `os.path.exists` against the model state. -/
def existsFS (s : FSState) (p : String) : Bool :=
  s.exists0 p || s.dirs.contains p || s.extracted.any (fun ft =>
    ft.1 == p ||
      match relUnder ft.1 p with
      | some rel => pathExistsIn (pySplit '/' rel) ft.2
      | none => false)

/-! ### `os.walk` -/

mutual

/-- The file paths `os.walk` reports at one directory level, in listing
order. -/
def filesAt (base : String) : EntryList → List String
  | .nil => []
  | .cons (.file n) rest => pyJoin base n :: filesAt base rest
  | .cons (.dir _ _) rest => filesAt base rest

/-- The file paths contributed by the subdirectories of a listing, in
listing order, each subdirectory walked depth-first (its own files first). -/
def walkSub (base : String) : EntryList → List String
  | .nil => []
  | .cons (.file _) rest => walkSub base rest
  | .cons (.dir n sub) rest =>
      filesAt (pyJoin base n) sub ++ walkSub (pyJoin base n) sub ++ walkSub base rest
end

/-- All regular-file paths under `base` in the order the
`for root, dirs, files in os.walk(...)` loop visits them: the files of each
directory before the contents of its subdirectories. -/
def walkTree (base : String) (es : EntryList) : List String :=
  filesAt base es ++ walkSub base es

/-- A tree with no regular files anywhere. -/
def noFiles : EntryList → Bool
  | .nil => true
  | .cons (.file _) _ => false
  | .cons (.dir _ sub) rest => noFiles sub && noFiles rest

/-! ### `get_zip_description` -/

/-- Errors surfacing out of `get_zip_description`: OS-level exceptions
(`FileExistsError`, a failed extraction) or an exception raised by one of the
captioning tools. -/
inductive PyError (ε : Type) where
  | osError (msg : String)
  | toolError (e : ε)
deriving DecidableEq, Repr

/-- The accumulation loop of lines 47–54: describe each walked file,
prefix a newline, indent by 4 spaces, append.  An exception from a
description aborts the loop. -/
def descLoop (ex : String → Bool)
    (visual_inspection_tool document_inspection_tool : String → String → Except ε String)
    (question : String) (acc : String) : List String → Except ε String
  | [] => .ok acc
  | fp :: rest =>
      match get_single_file_description ex visual_inspection_tool document_inspection_tool
          fp question with
      | .error e => .error e
      | .ok d =>
          descLoop ex visual_inspection_tool document_inspection_tool question
            (acc ++ "\n" ++ pyIndent d "    ") rest

/-- `get_zip_description` (lines 42–55).  `unpack_archive` models the
`shutil.unpack_archive` primitive: reading the archive at a path yields its
tree, or an error for a corrupt/unsupported archive.  Returns the result (or
propagated exception) together with the filesystem state after the call. -/
def get_zip_description
    (visual_inspection_tool document_inspection_tool : String → String → Except ε String)
    (unpack_archive : String → Except String EntryList)
    (file_path question : String) (s : FSState) :
    Except (PyError ε) String × FSState :=
  let folder_path := zipFolderPath file_path
  match os_makedirs folder_path true s with
  | .error m => (.error (.osError m), s)
  | .ok s1 =>
      match unpack_archive file_path with
      | .error m => (.error (.osError m), s1)
      | .ok tree =>
          let s2 := unpackInto folder_path tree s1
          match descLoop (existsFS s2) visual_inspection_tool document_inspection_tool
              question "" (walkTree folder_path tree) with
          | .error e => (.error (.toolError e), s2)
          | .ok out => (.ok out, s2)

/-! ### Spec-side definitions (from the spec's words, for comparison with the
source-derived definitions above) -/

/-- Modelled from the spec: "a sibling file ... with the same base name and a
`.png` extension", read as the original path with only its FINAL extension
replaced by `.png`. -/
def spec_png_sibling (p : String) : String :=
  String.intercalate "." (pySplit '.' p).dropLast ++ ".png"

/-- Modelled from the spec: "stripping the trailing archive suffix `.zip`
from the path (and only that suffix)". -/
def spec_strip_trailing_zip (p : String) : String :=
  if strEnds p ".zip" then String.mk (p.data.take (p.data.length - 4)) else p

/-- Python `str.lower` on ASCII, as the spec's "lowercase suffix" requires. -/
def pyLower (s : String) : String := String.mk (s.data.map Char.toLower)

/-- Modelled from the spec: classification "by lowercasing the suffix after
the final `.` before matching it against the fixed extension sets". -/
def spec_classify_lowercased (p : String) : ExtensionClass :=
  if pyLower (extOf p) ∈ imageExts then .image
  else if pyLower (extOf p) ∈ docExts then .document
  else if pyLower (extOf p) ∈ audioExts then .audio
  else .other

/-- Lexicographic (string-order) comparison on paths, char by char. -/
def strLe : List Char → List Char → Bool
  | [], _ => true
  | _ :: _, [] => false
  | a :: as, b :: bs => if a = b then strLe as bs else decide (a < b)

/-- Insertion into a list sorted by `strLe`. -/
def lexInsert (x : String) : List String → List String
  | [] => [x]
  | y :: ys => if strLe x.data y.data then x :: y :: ys else y :: lexInsert x ys

/-- Insertion sort by `strLe`: lexicographic path order. -/
def lexSort : List String → List String
  | [] => []
  | x :: xs => lexInsert x (lexSort xs)

/-- Modelled from the spec: the Archive Expander output with the fragments
concatenated "in lexicographic path order" (same per-file description and
formatting, walked files sorted by the string order first). -/
def spec_lex_zip_output (ex : String → Bool)
    (visual_inspection_tool document_inspection_tool : String → String → Except ε String)
    (question : String) (files : List String) : Except ε String :=
  descLoop ex visual_inspection_tool document_inspection_tool question "" (lexSort files)

/-! ### Concrete instances used to evaluate the theorems -/

/-- Deterministic image captioner returning the caption `VIS`. -/
def visW : String → String → Except String String := fun _ _ => .ok "VIS"

/-- Deterministic document captioner returning the caption `DOC`. -/
def docW : String → String → Except String String := fun _ _ => .ok "DOC"

/-- An image captioner whose backend always fails. -/
def visE : String → String → Except String String := fun _ _ => .error "CaptionBackendFailure"

/-- A document captioner whose backend always fails. -/
def docE : String → String → Except String String := fun _ _ => .error "DocBackendFailure"

/-- `os.path.exists` on a filesystem with no pre-rendered PNG siblings. -/
def exNone : String → Bool := fun _ => false

/-- `os.path.exists` on a filesystem where only `a.b.png` exists. -/
def exC1 : String → Bool := fun p => p == "a.b.png"

/-- `os.path.exists` on a filesystem where only `r.png` exists. -/
def exR : String → Bool := fun p => p == "r.png"

/-- Archive content `sub/a.txt`, `z.txt` (listing order: `sub` before
`z.txt`). -/
def treeW : EntryList :=
  .cons (.dir "sub" (.cons (.file "a.txt") .nil)) (.cons (.file "z.txt") .nil)

/-- Archive content holding only an empty directory `d`. -/
def treeE : EntryList := .cons (.dir "d" .nil) .nil

/-- Archive content holding a single image `a.png`. -/
def treeP : EntryList := .cons (.file "a.png") .nil

/-- An initially empty filesystem. -/
def fs0 : FSState := ⟨fun _ => false, [], []⟩

/-- Extraction primitive for an archive `data.zip` holding `treeW`. -/
def unpW : String → Except String EntryList :=
  fun p => if p == "data.zip" then .ok treeW else .error "ReadError"

/-- Extraction primitive for an archive `data.zip` holding `treeE`. -/
def unpE : String → Except String EntryList :=
  fun p => if p == "data.zip" then .ok treeE else .error "ReadError"

/-- Extraction primitive for an archive `data.zip` holding `treeP`. -/
def unpP : String → Except String EntryList :=
  fun p => if p == "data.zip" then .ok treeP else .error "ReadError"

/-- Extraction primitive for a corrupt archive. -/
def unpBad : String → Except String EntryList := fun _ => .error "BadZipFile"

/-- The filesystem state right after `get_zip_description` has created the
destination directory and extracted `tree` into it, starting from `s`. -/
def extractedState (p : String) (tree : EntryList) (s : FSState) : FSState :=
  unpackInto (zipFolderPath p) tree (makedirsState (zipFolderPath p) s)

/-- The filesystem state after expanding `data.zip` (holding `treeW`) over
the empty filesystem. -/
def fs1W : FSState := ⟨fun _ => false, ["data"], [("data", treeW)]⟩

end RunAgents

namespace RunAgents

/-! ### Helper lemmas -/

theorem mem_audio_not_image {x : String} (h : x ∈ audioExts) : x ∉ imageExts := by
  simp only [audioExts, List.mem_cons, List.not_mem_nil, or_false] at h
  rcases h with h | h | h <;> subst h <;> decide

theorem mem_audio_not_doc {x : String} (h : x ∈ audioExts) : x ∉ docExts := by
  simp only [audioExts, List.mem_cons, List.not_mem_nil, or_false] at h
  rcases h with h | h | h <;> subst h <;> decide

theorem mem_doc_not_image {x : String} (h : x ∈ docExts) : x ∉ imageExts := by
  simp only [docExts, List.mem_cons, List.not_mem_nil, or_false] at h
  rcases h with h | h | h | h | h | h <;> subst h <;> decide

/-- Unfolding of the image branch. -/
theorem gsfd_image {ε} (ex : String → Bool) (vis doc : String → String → Except ε String)
    (p q : String) (h : extOf p ∈ imageExts) :
    get_single_file_description ex vis doc p q =
      match vis p (imagePrompt q) with
      | .error e => .error e
      | .ok cap =>
          .ok (" - Attached image: " ++ p ++ "\n     -> Image description: " ++ cap) := by
  simp [get_single_file_description, get_image_description, h]

/-- Unfolding of the document branch when the PNG probe exists. -/
theorem gsfd_doc_png {ε} (ex : String → Bool) (vis doc : String → String → Except ε String)
    (p q : String) (h : extOf p ∈ docExts) (hex : ex (pngProbe p) = true) :
    get_single_file_description ex vis doc p q =
      match vis (pngProbe p) (imagePrompt q) with
      | .error e => .error e
      | .ok d =>
          .ok (" - Attached document: " ++ pngProbe p ++ "\n     -> File description: " ++ d) := by
  simp [get_single_file_description, get_image_description, h, hex, mem_doc_not_image h]

/-- Unfolding of the document branch when the PNG probe is absent. -/
theorem gsfd_doc_nopng {ε} (ex : String → Bool) (vis doc : String → String → Except ε String)
    (p q : String) (h : extOf p ∈ docExts) (hex : ex (pngProbe p) = false) :
    get_single_file_description ex vis doc p q =
      match doc p (docPrompt q) with
      | .error e => .error e
      | .ok d =>
          .ok (" - Attached document: " ++ p ++ "\n     -> File description: " ++ d) := by
  simp [get_single_file_description, get_document_description, h, hex, mem_doc_not_image h]

/-- Unfolding of the audio branch. -/
theorem gsfd_audio {ε} (ex : String → Bool) (vis doc : String → String → Except ε String)
    (p q : String) (h : extOf p ∈ audioExts) :
    get_single_file_description ex vis doc p q = .ok (" - Attached audio: " ++ p) := by
  simp [get_single_file_description, h, mem_audio_not_image h, mem_audio_not_doc h]

/-- Unfolding of the fall-through branch. -/
theorem gsfd_other {ε} (ex : String → Bool) (vis doc : String → String → Except ε String)
    (p q : String) (h1 : extOf p ∉ imageExts) (h2 : extOf p ∉ docExts)
    (h3 : extOf p ∉ audioExts) :
    get_single_file_description ex vis doc p q = .ok (" - Attached file: " ++ p) := by
  simp [get_single_file_description, h1, h2, h3]

/-! ### The claims -/

/-- C3, counterexample: the code matches the extension case-sensitively, so
`img.PNG` is classified `other` by `classifyExt`, while the claimed
lowercase-first classification (`spec_classify_lowercased`) yields `image`:
the claim is false at path `img.PNG`. -/
theorem claim_C3_counterexample :
    classifyExt "img.PNG" = ExtensionClass.other ∧
    spec_classify_lowercased "img.PNG" = ExtensionClass.image ∧
    ExtensionClass.other ≠ ExtensionClass.image := by
  refine ⟨rfl, rfl, by decide⟩

/-- C3, amended: the ExtensionClass is computed by matching the
case-preserved suffix after the final `.` against the fixed extension sets;
no lowercasing happens, so any path whose extension differs from its own
lowercasing (e.g. `.PNG`, `.Pdf`) is classified `other`. -/
theorem claim_C3 (p : String) (h : extOf p ≠ pyLower (extOf p)) :
    classifyExt p = ExtensionClass.other := by
  have h1 : extOf p ∉ imageExts := by
    intro hm
    simp only [imageExts, List.mem_cons, List.not_mem_nil, or_false] at hm
    rcases hm with h' | h' | h' <;> rw [h'] at h <;> exact h (by decide)
  have h2 : extOf p ∉ docExts := by
    intro hm
    simp only [docExts, List.mem_cons, List.not_mem_nil, or_false] at hm
    rcases hm with h' | h' | h' | h' | h' | h' <;> rw [h'] at h <;> exact h (by decide)
  have h3 : extOf p ∉ audioExts := by
    intro hm
    simp only [audioExts, List.mem_cons, List.not_mem_nil, or_false] at hm
    rcases hm with h' | h' | h' <;> rw [h'] at h <;> exact h (by decide)
  simp [classifyExt, h1, h2, h3]

/-- C3, witness: the amended theorem evaluated at `img.PNG`. -/
theorem claim_C3_witness :
    extOf "img.PNG" ≠ pyLower (extOf "img.PNG") ∧
    classifyExt "img.PNG" = ExtensionClass.other :=
  ⟨by decide, claim_C3 "img.PNG" (by decide)⟩

/-- C6: a path with extension in `{mp3, m4a, wav}` yields exactly
` - Attached audio: <path>`, and a path whose extension lies in none of the
three sets (no extension and nested `.zip` included) yields exactly
` - Attached file: <path>`; in both cases the result holds for every pair of
captioners (none is invoked) and is an `ok`, never an error. -/
theorem claim_C6 {ε} (ex : String → Bool) (vis doc : String → String → Except ε String)
    (p q : String) :
    (extOf p ∈ audioExts →
      get_single_file_description ex vis doc p q = .ok (" - Attached audio: " ++ p)) ∧
    (extOf p ∉ imageExts → extOf p ∉ docExts → extOf p ∉ audioExts →
      get_single_file_description ex vis doc p q = .ok (" - Attached file: " ++ p)) :=
  ⟨fun h => gsfd_audio ex vis doc p q h,
   fun h1 h2 h3 => gsfd_other ex vis doc p q h1 h2 h3⟩

/-- C6, witness: evaluated at `song.mp3`, at a nested archive `inner.zip`
and at an extensionless path `README`. -/
theorem claim_C6_witness :
    get_single_file_description exNone visW docW "song.mp3" "Q"
        = .ok " - Attached audio: song.mp3" ∧
    get_single_file_description exNone visW docW "inner.zip" "Q"
        = .ok " - Attached file: inner.zip" ∧
    get_single_file_description exNone visW docW "README" "Q"
        = .ok " - Attached file: README" :=
  ⟨(claim_C6 exNone visW docW "song.mp3" "Q").1 (by decide),
   (claim_C6 exNone visW docW "inner.zip" "Q").2 (by decide) (by decide) (by decide),
   (claim_C6 exNone visW docW "README" "Q").2 (by decide) (by decide) (by decide)⟩

/-- C7: a path with extension in `{png, jpg, jpeg}` is classified `image`,
the prompt passed to the image captioner embeds the question text verbatim,
the captioner is invoked on the path itself, and a returned caption is
formatted as ` - Attached image: <path>\n     -> Image description: <caption>`. -/
theorem claim_C7 {ε} (ex : String → Bool) (vis doc : String → String → Except ε String)
    (p q : String) (h : extOf p ∈ imageExts) :
    classifyExt p = ExtensionClass.image ∧
    (∃ pre suf, imagePrompt q = pre ++ q ++ suf) ∧
    get_single_file_description ex vis doc p q =
      match vis p (imagePrompt q) with
      | .error e => .error e
      | .ok cap =>
          .ok (" - Attached image: " ++ p ++ "\n     -> Image description: " ++ cap) := by
  refine ⟨by simp [classifyExt, h], ⟨_, _, rfl⟩, gsfd_image ex vis doc p q h⟩

/-- C7, witness: evaluated at `pic.png` with the deterministic captioner. -/
theorem claim_C7_witness :
    classifyExt "pic.png" = ExtensionClass.image ∧
    (∃ pre suf, imagePrompt "Q" = pre ++ "Q" ++ suf) ∧
    get_single_file_description exNone visW docW "pic.png" "Q" =
      match visW "pic.png" (imagePrompt "Q") with
      | .error e => .error e
      | .ok cap =>
          .ok (" - Attached image: " ++ "pic.png" ++ "\n     -> Image description: " ++ cap) :=
  claim_C7 exNone visW docW "pic.png" "Q" (by decide)

/-- C1, counterexample: for `a.b.pdf` the claim's sibling (final extension
replaced by `.png`) is `a.b.png`, but the code probes `a.png` (everything
after the FIRST `.` is dropped); on a filesystem where `a.b.png` exists the
code still calls the document captioner and reports the original path, so
the claim is false at `a.b.pdf`. -/
theorem claim_C1_counterexample :
    spec_png_sibling "a.b.pdf" = "a.b.png" ∧
    pngProbe "a.b.pdf" = "a.png" ∧
    exC1 (spec_png_sibling "a.b.pdf") = true ∧
    get_single_file_description exC1 visW docW "a.b.pdf" "Q"
        = .ok " - Attached document: a.b.pdf\n     -> File description: DOC" ∧
    (" - Attached document: a.b.pdf\n     -> File description: DOC" : String)
        ≠ " - Attached document: a.b.png\n     -> File description: VIS" :=
  ⟨rfl, rfl, rfl, rfl, by decide⟩

/-- C1, amended: for a document-extension path the code probes
`file_path.split(".")[0] + ".png"` — the prefix before the FIRST dot with
`.png` appended (which equals "final extension replaced" only when the path
has a single dot); if that probe exists, the image captioner is invoked on
the probe path and the fragment reports the probe path, not the original. -/
theorem claim_C1 {ε} (ex : String → Bool) (vis doc : String → String → Except ε String)
    (p q cap : String) (hd : extOf p ∈ docExts) (hex : ex (pngProbe p) = true)
    (hv : vis (pngProbe p) (imagePrompt q) = .ok cap) :
    get_single_file_description ex vis doc p q =
      .ok (" - Attached document: " ++ pngProbe p ++ "\n     -> File description: " ++ cap) := by
  rw [gsfd_doc_png ex vis doc p q hd hex, hv]

/-- C1, witness: the amended theorem evaluated at `r.pdf` with sibling
`r.png` present. -/
theorem claim_C1_witness :
    get_single_file_description exR visW docW "r.pdf" "Q"
        = .ok (" - Attached document: " ++ pngProbe "r.pdf" ++ "\n     -> File description: " ++ "VIS") :=
  claim_C1 exR visW docW "r.pdf" "Q" "VIS" (by decide) rfl rfl

/-- With `exist_ok=True`, `os.makedirs` always succeeds. -/
theorem os_makedirs_exist_ok (p : String) (s : FSState) :
    os_makedirs p true s = .ok (makedirsState p s) := by
  simp [os_makedirs]

/-- If any file of the walk fails to describe, the accumulation loop cannot
return a result, whatever the accumulator holds. -/
theorem descLoop_ne_ok {ε} (ex : String → Bool)
    (vis doc : String → String → Except ε String) (q fp : String) (e : ε) :
    ∀ (files : List String), fp ∈ files →
      get_single_file_description ex vis doc fp q = .error e →
      ∀ (acc out : String), descLoop ex vis doc q acc files ≠ .ok out
  | [], hfp, _, _, _ => by cases hfp
  | g :: rest, hfp, he, acc, out => by
      rcases List.mem_cons.mp hfp with h | h
      · subst h
        simp only [descLoop, he]
        exact fun hc => by cases hc
      · cases hg : get_single_file_description ex vis doc g q with
        | error e' => simp [descLoop, hg]
        | ok d =>
            simp only [descLoop, hg]
            exact descLoop_ne_ok ex vis doc q fp e rest h he _ out

/-- C8: a captioner failure propagates unmodified out of
`get_single_file_description` in each of the three captioning branches, and
inside `get_zip_description` a failing description of any walked file aborts
the whole expansion — no `ok` result is produced. -/
theorem claim_C8 {ε} (ex : String → Bool) (vis doc : String → String → Except ε String)
    (unp : String → Except String EntryList) (p q fp zp : String) (e : ε)
    (tree : EntryList) (s : FSState) :
    (extOf p ∈ imageExts → vis p (imagePrompt q) = .error e →
      get_single_file_description ex vis doc p q = .error e) ∧
    (extOf p ∈ docExts → ex (pngProbe p) = true →
      vis (pngProbe p) (imagePrompt q) = .error e →
      get_single_file_description ex vis doc p q = .error e) ∧
    (extOf p ∈ docExts → ex (pngProbe p) = false →
      doc p (docPrompt q) = .error e →
      get_single_file_description ex vis doc p q = .error e) ∧
    (unp zp = .ok tree → fp ∈ walkTree (zipFolderPath zp) tree →
      get_single_file_description (existsFS (extractedState zp tree s)) vis doc fp q
        = .error e →
      ∀ out, (get_zip_description vis doc unp zp q s).1 ≠ .ok out) := by
  refine ⟨fun h hv => ?_, fun h hex hv => ?_, fun h hex hd => ?_, fun hu hfp he out => ?_⟩
  · rw [gsfd_image ex vis doc p q h, hv]
  · rw [gsfd_doc_png ex vis doc p q h hex, hv]
  · rw [gsfd_doc_nopng ex vis doc p q h hex, hd]
  · have hloop := descLoop_ne_ok (existsFS (extractedState zp tree s)) vis doc q fp e
      (walkTree (zipFolderPath zp) tree) hfp he "" out
    simp only [extractedState] at hloop
    intro hc
    simp only [get_zip_description, os_makedirs_exist_ok, hu] at hc
    rcases hdl : descLoop
        (existsFS (unpackInto (zipFolderPath zp) tree (makedirsState (zipFolderPath zp) s)))
        vis doc q "" (walkTree (zipFolderPath zp) tree) with e' | o
    · rw [hdl] at hc
      cases hc
    · rw [hdl] at hc
      cases hc
      exact hloop hdl

/-- C8, witness: the four propagation facts evaluated at concrete inputs
(`pic.png` with a failing image captioner; `r.pdf` with an existing `r.png`
sibling and a failing image captioner; `r.pdf` with no sibling and a failing
document captioner; an archive holding `a.png` with a failing image
captioner). -/
theorem claim_C8_witness :
    get_single_file_description exNone visE docW "pic.png" "Q"
        = .error "CaptionBackendFailure" ∧
    get_single_file_description exR visE docW "r.pdf" "Q"
        = .error "CaptionBackendFailure" ∧
    get_single_file_description exNone visW docE "r.pdf" "Q"
        = .error "DocBackendFailure" ∧
    ∀ out, (get_zip_description visE docW unpP "data.zip" "Q" fs0).1 ≠ .ok out :=
  ⟨(claim_C8 exNone visE docW unpP "pic.png" "Q" "x" "z" "CaptionBackendFailure" treeP fs0).1
      (by decide) rfl,
   (claim_C8 exR visE docW unpP "r.pdf" "Q" "x" "z" "CaptionBackendFailure" treeP fs0).2.1
      (by decide) (by decide) rfl,
   (claim_C8 exNone visW docE unpP "r.pdf" "Q" "x" "z" "DocBackendFailure" treeP fs0).2.2.1
      (by decide) (by decide) rfl,
   (claim_C8 exNone visE docW unpP "x" "Q" "data/a.png" "data.zip" "CaptionBackendFailure"
        treeP fs0).2.2.2
      rfl
      (by
        have hz : zipFolderPath "data.zip" = "data" := by
          simp [zipFolderPath, pyReplace, pyReplaceAux]
        rw [hz]; decide)
      rfl⟩

/-- The created directory is in the directory set afterwards. -/
theorem contains_makedirsState (p : String) (s : FSState) :
    (makedirsState p s).dirs.contains p = true := by
  by_cases hm : p ∈ s.dirs
  · have hc : s.dirs.contains p = true := by simpa using hm
    simp [makedirsState, hc, hm]
  · have hc : s.dirs.contains p = false := by simpa using hm
    simp [makedirsState, hc, hm]

/-- C9: when extraction fails, the exception propagates out of
`get_zip_description`, but the destination directory created beforehand by
`os.makedirs` persists in the resulting filesystem state: the expansion is
not atomic. -/
theorem claim_C9 {ε} (vis doc : String → String → Except ε String)
    (unp : String → Except String EntryList) (p q msg : String) (s : FSState)
    (h : unp p = .error msg) :
    (get_zip_description vis doc unp p q s).1 = .error (.osError msg) ∧
    ((get_zip_description vis doc unp p q s).2).dirs.contains (zipFolderPath p) = true := by
  have hg : get_zip_description vis doc unp p q s
      = (.error (.osError msg), makedirsState (zipFolderPath p) s) := by
    simp only [get_zip_description, os_makedirs_exist_ok, h]
  rw [hg]
  exact ⟨rfl, contains_makedirsState _ s⟩

/-- C9, witness: evaluated on a corrupt archive `data.zip` over the empty
filesystem. -/
theorem claim_C9_witness :
    (get_zip_description visW docW unpBad "data.zip" "Q" fs0).1
        = .error (.osError "BadZipFile") ∧
    ((get_zip_description visW docW unpBad "data.zip" "Q" fs0).2).dirs.contains
        (zipFolderPath "data.zip") = true :=
  claim_C9 visW docW unpBad "data.zip" "Q" "BadZipFile" fs0 rfl

theorem filesAt_eq_nil (b : String) :
    ∀ (es : EntryList), noFiles es = true → filesAt b es = []
  | .nil, _ => rfl
  | .cons (.file _) _, h => by simp [noFiles] at h
  | .cons (.dir _ sub) rest, h => by
      simp only [noFiles, Bool.and_eq_true] at h
      simpa [filesAt] using filesAt_eq_nil b rest h.2

theorem walkSub_eq_nil :
    ∀ (b : String) (es : EntryList), noFiles es = true → walkSub b es = []
  | _, .nil, _ => rfl
  | _, .cons (.file _) _, h => by simp [noFiles] at h
  | b, .cons (.dir n sub) rest, h => by
      simp only [noFiles, Bool.and_eq_true] at h
      simp [walkSub, filesAt_eq_nil _ sub h.1, walkSub_eq_nil _ sub h.1,
        walkSub_eq_nil b rest h.2]

/-- A tree without regular files walks to the empty file list. -/
theorem walkTree_eq_nil (b : String) (es : EntryList) (h : noFiles es = true) :
    walkTree b es = [] := by
  simp [walkTree, filesAt_eq_nil b es h, walkSub_eq_nil b es h]

/-- C10: an archive whose tree holds no regular files (empty, or only empty
directories) yields the empty output string, for every pair of captioners
(none is invoked) and without an error. -/
theorem claim_C10 {ε} (vis doc : String → String → Except ε String)
    (unp : String → Except String EntryList) (p q : String) (s : FSState)
    (tree : EntryList) (h1 : unp p = .ok tree) (h2 : noFiles tree = true) :
    (get_zip_description vis doc unp p q s).1 = .ok "" := by
  simp only [get_zip_description, os_makedirs_exist_ok, h1,
    walkTree_eq_nil (zipFolderPath p) tree h2]
  rfl

/-- C10, witness: evaluated on an archive holding only the empty directory
`d`. -/
theorem claim_C10_witness :
    (get_zip_description visW docW unpE "data.zip" "Q" fs0).1 = .ok "" :=
  claim_C10 visW docW unpE "data.zip" "Q" fs0 treeE rfl (by decide)

/-- Creating an already-present directory leaves the state unchanged. -/
theorem makedirsState_of_contains {p : String} {s : FSState}
    (h : s.dirs.contains p = true) : makedirsState p s = s := by
  have hm : p ∈ s.dirs := by simpa using h
  simp [makedirsState, hm]

theorem dirs_unpackInto (f : String) (t : EntryList) (s : FSState) :
    (unpackInto f t s).dirs = s.dirs := rfl

/-- Re-extracting the same tree into the same folder is a no-op on the
state. -/
theorem unpackInto_idem (f : String) (t : EntryList) (s : FSState) :
    unpackInto f t (unpackInto f t s) = unpackInto f t s := by
  simp only [unpackInto, List.filter_cons]
  have hf : (!(f == f)) = false := by simp
  simp [hf, List.filter_filter]

/-- C4: expanding the same archive a second time, starting from the state
the first expansion left behind, does not raise (despite the destination
directory already existing) and returns the same output string and state. -/
theorem claim_C4 {ε} (vis doc : String → String → Except ε String)
    (unp : String → Except String EntryList) (p q out : String) (s s1 : FSState)
    (h : get_zip_description vis doc unp p q s = (.ok out, s1)) :
    get_zip_description vis doc unp p q s1 = (.ok out, s1) := by
  simp only [get_zip_description, os_makedirs_exist_ok] at h ⊢
  rcases hu : unp p with m | tree
  · rw [hu] at h
    simp at h
  · rw [hu] at h
    dsimp only at h
    rcases hdl : descLoop
        (existsFS (unpackInto (zipFolderPath p) tree (makedirsState (zipFolderPath p) s)))
        vis doc q "" (walkTree (zipFolderPath p) tree) with e | o
    · rw [hdl] at h
      simp at h
    · rw [hdl] at h
      simp only [Prod.mk.injEq, Except.ok.injEq] at h
      obtain ⟨ho, hs⟩ := h
      subst ho
      have hcont : s1.dirs.contains (zipFolderPath p) = true := by
        rw [← hs, dirs_unpackInto]
        exact contains_makedirsState _ s
      rw [makedirsState_of_contains hcont]
      have hid : unpackInto (zipFolderPath p) tree s1 = s1 := by
        rw [← hs]
        exact unpackInto_idem _ tree _
      dsimp only
      rw [hid]
      rw [hs] at hdl
      rw [hdl]

/-- C4, witness: `data.zip` expanded over the empty filesystem and then
expanded again from the resulting state. -/
theorem claim_C4_witness :
    get_zip_description visW docW unpW "data.zip" "Q" fs1W
      = (.ok "\n     - Attached file: data/z.txt\n     - Attached file: data/sub/a.txt", fs1W) :=
  claim_C4 visW docW unpW "data.zip" "Q"
    "\n     - Attached file: data/z.txt\n     - Attached file: data/sub/a.txt" fs0 fs1W
    (by
      have hz : zipFolderPath "data.zip" = "data" := by
        simp [zipFolderPath, pyReplace, pyReplaceAux]
      simp only [get_zip_description, hz]
      rfl)

/-- When every walked file describes successfully, the loop returns the
fold of the newline-prefixed, 4-space-indented fragments over the
accumulator. -/
theorem descLoop_of_ok {ε} (ex : String → Bool)
    (vis doc : String → String → Except ε String) (q : String)
    {files ds : List String}
    (h : List.Forall₂
      (fun fp d => get_single_file_description ex vis doc fp q = .ok d) files ds) :
    ∀ acc, descLoop ex vis doc q acc files
      = .ok (ds.foldl (fun a d => a ++ "\n" ++ pyIndent d "    ") acc) := by
  induction h with
  | nil => intro acc; rfl
  | cons h1 h2 ih =>
      intro acc
      simp only [descLoop, h1, List.foldl_cons]
      exact ih _

/-- C5, counterexample: for `data.zip` holding `sub/a.txt` and `z.txt`, the
code concatenates the fragment of `data/z.txt` before that of
`data/sub/a.txt` (`os.walk` lists a directory's files before its
subdirectories' contents), while the lexicographic path order claimed by the
spec puts `data/sub/a.txt` first: the outputs differ. -/
theorem claim_C5_counterexample :
    (get_zip_description visW docW unpW "data.zip" "Q" fs0).1
        = .ok "\n     - Attached file: data/z.txt\n     - Attached file: data/sub/a.txt" ∧
    spec_lex_zip_output exNone visW docW "Q" (walkTree "data" treeW)
        = .ok "\n     - Attached file: data/sub/a.txt\n     - Attached file: data/z.txt" ∧
    ("\n     - Attached file: data/z.txt\n     - Attached file: data/sub/a.txt" : String)
        ≠ "\n     - Attached file: data/sub/a.txt\n     - Attached file: data/z.txt" := by
  refine ⟨?_, rfl, by decide⟩
  have hz : zipFolderPath "data.zip" = "data" := by
    simp [zipFolderPath, pyReplace, pyReplaceAux]
  simp only [get_zip_description, hz]
  rfl

/-- C5, amended: `get_zip_description` concatenates the fragments of the
contained regular files in `os.walk` order — each directory's files (in
listing order) before the contents of its subdirectories — not in global
lexicographic path order; each fragment is prefixed by a newline and
indented by 4 spaces. -/
theorem claim_C5 {ε} (vis doc : String → String → Except ε String)
    (unp : String → Except String EntryList) (p q : String) (s : FSState)
    (tree : EntryList) (ds : List String) (h1 : unp p = .ok tree)
    (h2 : List.Forall₂
      (fun fp d =>
        get_single_file_description (existsFS (extractedState p tree s)) vis doc fp q
          = .ok d)
      (walkTree (zipFolderPath p) tree) ds) :
    (get_zip_description vis doc unp p q s).1
      = .ok (ds.foldl (fun a d => a ++ "\n" ++ pyIndent d "    ") "") := by
  simp only [extractedState] at h2
  simp only [get_zip_description, os_makedirs_exist_ok, h1]
  rw [descLoop_of_ok _ vis doc q h2 ""]

/-- C5, witness: the amended theorem evaluated on `data.zip` holding
`sub/a.txt` and `z.txt`. -/
theorem claim_C5_witness :
    (get_zip_description visW docW unpW "data.zip" "Q" fs0).1
      = .ok (List.foldl (fun a d => a ++ "\n" ++ pyIndent d "    ") ""
          [" - Attached file: data/z.txt", " - Attached file: data/sub/a.txt"]) :=
  claim_C5 visW docW unpW "data.zip" "Q" fs0 treeW
    [" - Attached file: data/z.txt", " - Attached file: data/sub/a.txt"] rfl
    (by
      have hz : zipFolderPath "data.zip" = "data" := by
        simp [zipFolderPath, pyReplace, pyReplaceAux]
      rw [hz]
      exact List.Forall₂.cons rfl (List.Forall₂.cons rfl List.Forall₂.nil))

/-- `str.replace` leaves a block untouched when no occurrence of the pattern
starts inside it. -/
theorem pyReplaceAux_append (p0 : Char) (ps new : List Char) :
    ∀ (q rest : List Char),
      (∀ i, i < q.length → ((p0 :: ps).isPrefixOf ((q ++ rest).drop i)) = false) →
      pyReplaceAux p0 ps new (q ++ rest) = q ++ pyReplaceAux p0 ps new rest
  | [], _, _ => by simp
  | c :: q', rest, h => by
      have h0 := h 0 (by simp)
      rw [List.cons_append] at h0 ⊢
      rw [List.drop_zero] at h0
      have hcond : ¬(c = p0 ∧ ps.isPrefixOf (q' ++ rest)) := by
        rintro ⟨hc, hp⟩
        subst hc
        simp [List.isPrefixOf_cons₂] at h0
        rw [hp] at h0
        exact Bool.noConfusion h0
      rw [pyReplaceAux, if_neg hcond]
      have h' : ∀ i, i < q'.length → ((p0 :: ps).isPrefixOf ((q' ++ rest).drop i)) = false := by
        intro i hi
        have := h (i + 1) (by simpa using Nat.succ_lt_succ hi)
        simpa using this
      rw [pyReplaceAux_append p0 ps new q' rest h']
      exact (List.cons_append c q' _).symm

/-- C2, counterexample: `file_path.replace(".zip", "")` removes every
occurrence of `.zip`, so for `data.zip.zip` the destination is `data`,
not the `data.zip` that stripping only the trailing suffix would give. -/
theorem claim_C2_counterexample :
    zipFolderPath "data.zip.zip" = "data" ∧
    spec_strip_trailing_zip "data.zip.zip" = "data.zip" ∧
    ("data" : String) ≠ "data.zip" := by
  refine ⟨by simp [zipFolderPath, pyReplace, pyReplaceAux], rfl, by decide⟩

/-- C2, amended: the destination directory is the path with EVERY occurrence
of the substring `.zip` removed; when the trailing `.zip` is the only
occurrence, this coincides with stripping the trailing suffix. -/
theorem claim_C2 (q : String)
    (h : ∀ i, i < q.data.length →
      ((".zip".data.isPrefixOf ((q.data ++ ".zip".data).drop i)) = false)) :
    zipFolderPath (q ++ ".zip") = q := by
  have h1 : zipFolderPath (q ++ ".zip")
      = String.mk (pyReplaceAux '.' ['z', 'i', 'p'] [] (q.data ++ ".zip".data)) := rfl
  rw [h1, pyReplaceAux_append '.' ['z', 'i', 'p'] [] q.data ".zip".data h]
  have h3 : pyReplaceAux '.' ['z', 'i', 'p'] [] (".zip".data) = [] := by
    simp [pyReplaceAux]
  rw [h3, List.append_nil]

/-- C2, witness: the amended theorem evaluated at `data` + `.zip`. -/
theorem claim_C2_witness : zipFolderPath ("data" ++ ".zip") = "data" :=
  claim_C2 "data" (by decide)

end RunAgents
